import Mathlib

/-!
Shallow embedding of the release journal / snapshot publisher / delivery
resolver of the koolexp repository.

Sources embedded:
- `JournalReleaseStore` (publication service storage): `create`, `read`,
  `list`, `promote`, `rollback`, `summary`, `getDeliverySnapshot`,
  `persistToDelivery`, `readActiveReleaseId`, `persist`.
- The publication service HTTP layer: the zod `createReleaseSchema`
  validation guarding `POST /v1/releases`.
- The delivery API: `readReleaseIndex`, `readReleaseFromDelivery`,
  `resolveRelease`.

Modelling conventions:
- Timestamps are `Nat` ticks.  The source stores ISO-8601 strings and
  compares them with `localeCompare`; lexicographic order on ISO strings
  coincides with chronological order, so `Nat` with `<=` is faithful.
- Opaque structured payloads (`components`, `seo`) are modelled as
  `String` data: the core never inspects them.
- `async` methods on the in-memory journal become pure functions from the
  journal state to a new state plus a result; a thrown exception becomes
  a `none` / `Except.error` result.  JavaScript string truthiness checks
  (`if (releaseId)`) are modelled explicitly: an empty string is falsy.
- The delivery directory (snapshot files plus `index.json`) is a
  `DeliveryState`: an association list of snapshot files keyed by release
  id (a later write shadows an earlier one, like overwriting a file) and
  an optional parsed index record.
-/

inductive ReleaseStatus
  | created
  | promoted
  | rolledback
deriving DecidableEq, Repr

/-- A page snapshot embedded in a release (source type `PageEntry`). -/
structure PageEntry where
  id : String
  path : String
  locale : String
  title : String
  components : List String
  seo : Option String
deriving DecidableEq, Repr

/-- A release as stored in the journal (source type `StoredRelease`). -/
structure StoredRelease where
  id : String
  status : ReleaseStatus
  createdAt : Nat
  promotedAt : Option Nat
  rolledBackAt : Option Nat
  name : Option String
  notes : Option String
  pages : List PageEntry
deriving DecidableEq, Repr

/-- Payload accepted by `JournalReleaseStore.create` after validation. -/
structure CreateReleasePayload where
  name : Option String
  notes : Option String
  pages : List PageEntry
deriving DecidableEq, Repr

/-- Filter accepted by `JournalReleaseStore.list` (source `ReleaseFilter`). -/
structure ReleaseFilter where
  status : Option ReleaseStatus
  search : Option String
deriving DecidableEq, Repr

/-- The in-memory/durable journal state (source `ReleaseState`). -/
structure ReleaseState where
  releases : List StoredRelease
deriving DecidableEq, Repr

/-- The parsed content of the delivery `index.json` file.  The reader
parses it as a record with an optional `activeReleaseId` field, hence the
`Option String`. -/
structure ActiveIndex where
  activeReleaseId : Option String
  updatedAt : Nat
deriving DecidableEq, Repr

/-- The delivery directory: snapshot files keyed by release id, plus the
active-pointer index file (absent when never written). -/
structure DeliveryState where
  snapshots : List (String × StoredRelease)
  index : Option ActiveIndex
deriving DecidableEq, Repr

/-- Combined system state: the journal file plus the delivery directory. -/
structure Sys where
  journal : ReleaseState
  delivery : DeliveryState
deriving DecidableEq, Repr

def initSys : Sys :=
  { journal := { releases := [] },
    delivery := { snapshots := [], index := none } }

/-- Look up a release in the journal: `state.releases.find(r => r.id === id)`. -/
def ReleaseState.findRelease (s : ReleaseState) (id : String) : Option StoredRelease :=
  s.releases.find? (fun r => r.id == id)

/-- Replace the first release whose id matches, modelling the in-place
mutation of the object returned by `find`. -/
def updFirst (l : List StoredRelease) (id : String) (f : StoredRelease → StoredRelease) :
    List StoredRelease :=
  match l with
  | [] => []
  | r :: rest => if r.id == id then f r :: rest else r :: updFirst rest id f

def ReleaseState.updateFirst (s : ReleaseState) (id : String)
    (f : StoredRelease → StoredRelease) : ReleaseState :=
  { releases := updFirst s.releases id f }

/-- Read a snapshot file from the delivery releases directory. -/
def DeliveryState.lookupSnapshot (ds : DeliveryState) (id : String) : Option StoredRelease :=
  (ds.snapshots.find? (fun p => p.1 == id)).map (fun p => p.2)

/-- Write (or overwrite) the snapshot file for a release. -/
def DeliveryState.writeSnapshot (ds : DeliveryState) (r : StoredRelease) : DeliveryState :=
  { ds with snapshots := (r.id, r) :: ds.snapshots }

/-- Overwrite the delivery index file with a new active pointer. -/
def DeliveryState.writeIndex (ds : DeliveryState) (id : String) (now : Nat) : DeliveryState :=
  { ds with index := some { activeReleaseId := some id, updatedAt := now } }

/-- Source `readActiveReleaseId`: parse `index.json`, returning
`parsed.activeReleaseId ?? null`; a missing file reads as `none`. -/
def DeliveryState.readActiveReleaseId (ds : DeliveryState) : Option String :=
  ds.index.bind (fun idx => idx.activeReleaseId)

/-- Substring containment over character lists, mirroring JavaScript
`String.prototype.includes` (an empty needle is always contained). -/
def listStartsWith : List Char → List Char → Bool
  | _, [] => true
  | [], _ :: _ => false
  | c :: cs, n :: ns => c == n && listStartsWith cs ns

def listContainsSeg (hay needle : List Char) : Bool :=
  match hay with
  | [] => needle.isEmpty
  | _ :: rest => listStartsWith hay needle || listContainsSeg rest needle

/-- JavaScript `hay.includes(needle)`. -/
def strIncludes (hay needle : String) : Bool :=
  listContainsSeg hay.toList needle.toList

/-- The search part of the `list` filter body.  The source guards with
`if (filter?.search)`: an empty search string is falsy and filters
nothing.  Otherwise the release matches when the lowered needle occurs in
the lowered name, notes, or any page path. -/
def searchPart (search : Option String) (release : StoredRelease) : Bool :=
  match search with
  | none => true
  | some q =>
    if q.isEmpty then true
    else
      let needle := q.toLower
      let matchesMetadata :=
        ((release.name.map (fun n => strIncludes n.toLower needle)).getD false) ||
        ((release.notes.map (fun n => strIncludes n.toLower needle)).getD false)
      let matchesPage := release.pages.any (fun page => strIncludes page.path.toLower needle)
      matchesMetadata || matchesPage

/-- The whole `list` filter predicate: status mismatch rejects first
(the source guards with `if (filter?.status && ...)`), then the search
clause decides. -/
def releaseMatches (f : ReleaseFilter) (release : StoredRelease) : Bool :=
  match f.status with
  | some st => if release.status != st then false else searchPart f.search release
  | none => searchPart f.search release

namespace JournalReleaseStore

/-- Source `create`: append a fresh release in status `created`.  `newId` models
the value of `crypto.randomUUID()` and `now` the creation instant. -/
def create (s : ReleaseState) (payload : CreateReleasePayload) (newId : String) (now : Nat) :
    ReleaseState × StoredRelease :=
  let release : StoredRelease :=
    { id := newId
      status := .created
      createdAt := now
      promotedAt := none
      rolledBackAt := none
      name := payload.name
      notes := payload.notes
      pages := payload.pages }
  ({ releases := s.releases ++ [release] }, release)

/-- Source `read(id)`: the release, or a thrown not-found error modelled as `none`. -/
def read (s : ReleaseState) (id : String) : Option StoredRelease :=
  s.findRelease id

/-- Source `list(filter?)`: filter, then sort by `createdAt` descending
(the source compares ISO strings with `localeCompare`, newest first;
JavaScript sort is stable, so stable `mergeSort` is the right model). -/
def list (s : ReleaseState) (filter : Option ReleaseFilter) : List StoredRelease :=
  (s.releases.filter (fun r =>
      match filter with
      | none => true
      | some f => releaseMatches f r)).mergeSort
    (fun a b => decide (b.createdAt ≤ a.createdAt))

/-- The mutation `promote` applies to the release it found. -/
def promoteMut (now : Nat) (r : StoredRelease) : StoredRelease :=
  { r with status := .promoted, promotedAt := some now, rolledBackAt := none }

/-- The mutation `rollback` applies to the release it found. -/
def rollbackMut (now : Nat) (r : StoredRelease) : StoredRelease :=
  { r with status := .rolledback, rolledBackAt := some now }

/-- Source `persistToDelivery`: write the snapshot file for the release, then
overwrite the index file naming it as active.  The two file writes can
each fail; a failed write leaves the delivery directory unchanged from
that point on (the thrown error aborts the rest of the method).
`snapOk` and `idxOk` are the fate of the two writes. -/
def persistToDelivery (ds : DeliveryState) (release : StoredRelease) (now : Nat)
    (snapOk idxOk : Bool) : DeliveryState × Bool :=
  if snapOk then
    let ds1 := ds.writeSnapshot release
    if idxOk then (ds1.writeIndex release.id now, true) else (ds1, false)
  else (ds, false)

/-- Source `promote(id)`: look the release up (throwing not-found when absent),
mutate it to promoted status in the journal, persist the journal, then
persist to delivery.  The result is `some` of the promoted release when
nothing threw, `none` when the read or a delivery write threw; the
returned `Sys` keeps whatever effects had already happened. -/
def promote (sys : Sys) (id : String) (now : Nat) (snapOk idxOk : Bool) :
    Sys × Option StoredRelease :=
  match sys.journal.findRelease id with
  | none => (sys, none)
  | some r =>
    let r' := promoteMut now r
    let js' := sys.journal.updateFirst id (fun s => promoteMut now s)
    let (ds', ok) := persistToDelivery sys.delivery r' now snapOk idxOk
    ({ journal := js', delivery := ds' }, if ok then some r' else none)

/-- Source `rollback(id)`: look the release up, mutate it to rolledback status,
persist the journal.  The delivery directory is never touched. -/
def rollback (sys : Sys) (id : String) (now : Nat) : Sys × Option StoredRelease :=
  match sys.journal.findRelease id with
  | none => (sys, none)
  | some r =>
    let r' := rollbackMut now r
    let js' := sys.journal.updateFirst id (fun s => rollbackMut now s)
    ({ sys with journal := js' }, some r')

/-- Source `summary()`: counts per status. -/
def summary (s : ReleaseState) : Nat × Nat × Nat :=
  (s.releases.countP (fun r => r.status == .created),
   s.releases.countP (fun r => r.status == .promoted),
   s.releases.countP (fun r => r.status == .rolledback))

/-- Source `getDeliverySnapshot(releaseId?)`: with a truthy (non-empty) explicit
id, read from the journal, turning a thrown not-found into `null`;
otherwise read the active pointer from the delivery index and read that
id from the journal, again mapping failures to `null`. -/
def getDeliverySnapshot (sys : Sys) (releaseId : Option String) : Option StoredRelease :=
  match releaseId with
  | some id =>
    if id.isEmpty then getDeliverySnapshotViaPointer sys else sys.journal.findRelease id
  | none => getDeliverySnapshotViaPointer sys
where
  getDeliverySnapshotViaPointer (sys : Sys) : Option StoredRelease :=
    match sys.delivery.readActiveReleaseId with
    | none => none
    | some active => if active.isEmpty then none else sys.journal.findRelease active

end JournalReleaseStore

/-- A raw page object as it arrives in the request body, before zod
validation: every field may be absent. -/
structure RawPage where
  id : Option String
  path : Option String
  locale : Option String
  title : Option String
  components : Option (List String)
  seo : Option String
deriving DecidableEq, Repr

/-- A raw create-release request body. -/
structure RawCreateRequest where
  name : Option String
  notes : Option String
  pages : List RawPage
deriving DecidableEq, Repr

/-- Schema `pageEntrySchema.parse`: `id`, `path`, `locale`, `title` are required;
`components` defaults to the empty array; `seo` is optional. -/
def parseRawPage (p : RawPage) : Option PageEntry :=
  match p.id, p.path, p.locale, p.title with
  | some i, some pa, some lo, some ti =>
    some { id := i, path := pa, locale := lo, title := ti,
           components := p.components.getD [], seo := p.seo }
  | _, _, _, _ => none

/-- Schema `z.array(pageEntrySchema).parse`: every element must parse. -/
def parsePages : List RawPage → Option (List PageEntry)
  | [] => some []
  | p :: rest =>
    match parseRawPage p, parsePages rest with
    | some pe, some pes => some (pe :: pes)
    | _, _ => none

/-- Schema `createReleaseSchema.parse`: every page must parse and the page array
must be non-empty; nothing else is checked. -/
def parseCreateRequest (req : RawCreateRequest) : Option CreateReleasePayload :=
  match parsePages req.pages with
  | none => none
  | some pages =>
    if pages.isEmpty then none
    else some { name := req.name, notes := req.notes, pages := pages }

inductive ServiceError
  | validation
  | notFound
deriving DecidableEq, Repr

/-- The `POST /v1/releases` handler: zod validation throws before the
store is touched; on success the create of the store runs and persists. -/
def postReleases (sys : Sys) (req : RawCreateRequest) (newId : String) (now : Nat) :
    Sys × Except ServiceError StoredRelease :=
  match parseCreateRequest req with
  | none => (sys, .error .validation)
  | some payload =>
    let (js', release) := JournalReleaseStore.create sys.journal payload newId now
    ({ sys with journal := js' }, .ok release)

/-- Delivery API `readReleaseIndex`: `parsed.activeReleaseId ?? null`. -/
def readReleaseIndex (ds : DeliveryState) : Option String :=
  ds.readActiveReleaseId

/-- Delivery API `readReleaseFromDelivery`: read the snapshot file,
mapping a read failure to `null`. -/
def readReleaseFromDelivery (ds : DeliveryState) (releaseId : String) : Option StoredRelease :=
  ds.lookupSnapshot releaseId

/-- Delivery API `resolveRelease(config, releaseId?)`.  The guard is the
truthiness test `if (releaseId)`, so an absent id and an empty-string id
take the active-pointer path; likewise `if (!activeId)` treats an empty
pointer value as absent. -/
def resolveRelease (ds : DeliveryState) (releaseId : Option String) : Option StoredRelease :=
  if (releaseId.map (fun id => !id.isEmpty)).getD false then
    readReleaseFromDelivery ds (releaseId.getD "")
  else
    match readReleaseIndex ds with
    | none => none
    | some activeId =>
      if activeId.isEmpty then none
      else readReleaseFromDelivery ds activeId

/-- A file-system effect issued by the journal store, with the payload
written kept symbolic. -/
inductive FsOp (α : Type)
  | write (filePath : String) (contents : α)
  | rename (src dst : String)
deriving DecidableEq, Repr

/-- Source `JournalReleaseStore.persist`: the fs effects of persisting the
journal — a single direct `writeFile` of the serialized full state onto
the store file.  No temporary file, no rename. -/
def persistOps (storeFile : String) (s : ReleaseState) : List (FsOp ReleaseState) :=
  [FsOp.write storeFile s]

/-- Modelled from the spec: the atomic-replace durability discipline of
section 4.2 — the committed journal file may only ever be installed by a
rename of a fully written temporary file (or an equivalent atomic
primitive), never by writing to the committed path directly. -/
def usesAtomicReplace (storeFile : String) (ops : List (FsOp α)) : Bool :=
  ops.all (fun op =>
    match op with
    | .write p _ => p != storeFile
    | .rename _ _ => true)

/-- Replaying a journal fs trace against the store file content (the
trace under scrutiny contains only writes; renames of other paths leave
the store file alone). -/
def runFs (storeFile : String) (file : Option ReleaseState) (ops : List (FsOp ReleaseState)) :
    Option ReleaseState :=
  ops.foldl (fun f op =>
    match op with
    | .write p c => if p == storeFile then some c else f
    | .rename _ _ => f) file

/-- One request-level operation against the system, with the fates of the
two delivery writes attached to a promotion. -/
inductive Event
  | createEv (payload : CreateReleasePayload) (newId : String) (now : Nat)
  | promoteEv (id : String) (now : Nat) (snapOk idxOk : Bool)
  | rollbackEv (id : String) (now : Nat)
deriving DecidableEq, Repr

def step (sys : Sys) (e : Event) : Sys :=
  match e with
  | .createEv payload newId now =>
    let (js', _) := JournalReleaseStore.create sys.journal payload newId now
    { sys with journal := js' }
  | .promoteEv id now snapOk idxOk => (JournalReleaseStore.promote sys id now snapOk idxOk).1
  | .rollbackEv id now => (JournalReleaseStore.rollback sys id now).1

def runEvents (sys : Sys) (evs : List Event) : Sys :=
  evs.foldl step sys

/-- The list-filter predicate exactly as the specification words it: a
status filter keeps precisely the releases whose current status equals
it, and a search string matches case-insensitively against the release
name, the notes, or any contained page path. -/
def claimMatches (f : ReleaseFilter) (r : StoredRelease) : Bool :=
  (match f.status with
   | some st => r.status == st
   | none => true) &&
  (match f.search with
   | some q =>
     ((r.name.map (fun n => strIncludes n.toLower q.toLower)).getD false) ||
     ((r.notes.map (fun n => strIncludes n.toLower q.toLower)).getD false) ||
     r.pages.any (fun p => strIncludes p.path.toLower q.toLower)
   | none => true)

/-- A raw page missing none of the required fields? -/
def rawPageMissingField (p : RawPage) : Bool :=
  p.id.isNone || p.path.isNone || p.locale.isNone || p.title.isNone

/-- The invariant of claim C5 over the reachable system states: whenever
the delivery index carries an active release id, the snapshot store holds
a snapshot under that id and the journal holds a release with that id
that has been promoted at least once. -/
def InvC5 (sys : Sys) : Prop :=
  ∀ idx aid, sys.delivery.index = some idx → idx.activeReleaseId = some aid →
    (sys.delivery.lookupSnapshot aid).isSome = true ∧
    ∃ r ∈ sys.journal.releases, r.id = aid ∧ r.promotedAt.isSome = true

/- Concrete fixtures used by counterexamples and witnesses. -/

def samplePage : PageEntry :=
  { id := "page-1", path := "/demo", locale := "en-AU", title := "Demo",
    components := [], seo := some "canonical" }

def samplePayload : CreateReleasePayload :=
  { name := some "demo", notes := some "first", pages := [samplePage] }

def sampleRawPage : RawPage :=
  { id := some "page-1", path := some "/demo", locale := some "en-AU",
    title := some "Demo", components := some [], seo := none }

def sampleRawPageB : RawPage :=
  { id := some "page-2", path := some "/demo", locale := some "en-AU",
    title := some "Other", components := some [], seo := none }

/-- A create request whose two pages share the (path, locale) pair. -/
def dupReq : RawCreateRequest :=
  { name := some "dup", notes := none, pages := [sampleRawPage, sampleRawPageB] }

/-- A journal holding one freshly created release with id a1. -/
def sysCreatedA : Sys := step initSys (.createEv samplePayload "a1" 0)

/-- The same journal after promoting a1 with both delivery writes ok. -/
def sysPromotedA : Sys := step sysCreatedA (.promoteEv "a1" 1 true true)

/-- A second created release b2 on top of the promoted a1. -/
def sysTwo : Sys := step sysPromotedA (.createEv samplePayload "b2" 2)


/-- The release created as a1 at time 0 from the sample payload. -/
def relCreatedA : StoredRelease :=
  { id := "a1", status := .created, createdAt := 0, promotedAt := none,
    rolledBackAt := none, name := some "demo", notes := some "first",
    pages := [samplePage] }

/-- relCreatedA after its promotion at time 1. -/
def relPromotedA : StoredRelease :=
  { id := "a1", status := .promoted, createdAt := 0, promotedAt := some 1,
    rolledBackAt := none, name := some "demo", notes := some "first",
    pages := [samplePage] }

/-- The release created as b2 at time 2 in sysTwo. -/
def relB2 : StoredRelease :=
  { id := "b2", status := .created, createdAt := 2, promotedAt := none,
    rolledBackAt := none, name := some "demo", notes := some "first",
    pages := [samplePage] }

/-- A list filter with a status restriction and a mixed-case search. -/
def c8Filter : ReleaseFilter := { status := some .created, search := some "DEM" }

/- Helper lemmas about journal lookup and in-place update. -/

theorem findRelease_id {s : ReleaseState} {id : String} {r : StoredRelease}
    (h : s.findRelease id = some r) : r.id = id := by
  have hp := List.find?_some h
  exact eq_of_beq hp

theorem find?_updFirst_self {l : List StoredRelease} {id : String} {r : StoredRelease}
    {f : StoredRelease → StoredRelease}
    (h : l.find? (fun x => x.id == id) = some r) (hf : (f r).id = r.id) :
    (updFirst l id f).find? (fun x => x.id == id) = some (f r) := by
  induction l with
  | nil => simp at h
  | cons a t ih =>
    simp only [List.find?] at h
    simp only [updFirst]
    cases hpa : (a.id == id) with
    | true =>
      rw [hpa] at h
      simp only at h
      injection h with h
      subst h
      simp [List.find?, hf, hpa]
    | false =>
      rw [hpa] at h
      simp only at h
      simp [List.find?, hpa]
      exact ih h

theorem find?_updFirst_ne {l : List StoredRelease} {id id' : String}
    {f : StoredRelease → StoredRelease}
    (hf : ∀ x, (f x).id = x.id) (hne : id' ≠ id) :
    (updFirst l id f).find? (fun x => x.id == id') = l.find? (fun x => x.id == id') := by
  induction l with
  | nil => rfl
  | cons a t ih =>
    simp only [updFirst]
    cases hpa : (a.id == id) with
    | true =>
      have ha : a.id = id := eq_of_beq hpa
      have h1 : ((f a).id == id') = false := by
        rw [hf a, ha]; exact beq_eq_false_iff_ne.mpr (fun hc => hne hc.symm)
      have h2 : (a.id == id') = false := by
        rw [ha]; exact beq_eq_false_iff_ne.mpr (fun hc => hne hc.symm)
      simp [List.find?, h1, h2]
    | false =>
      cases hp' : (a.id == id') with
      | true => simp [List.find?, hpa, hp']
      | false => simp [List.find?, hpa, hp', ih]

theorem mem_updFirst_of_find? {l : List StoredRelease} {id : String} {r : StoredRelease}
    {f : StoredRelease → StoredRelease}
    (h : l.find? (fun x => x.id == id) = some r) : f r ∈ updFirst l id f := by
  induction l with
  | nil => simp at h
  | cons a t ih =>
    simp only [List.find?] at h
    simp only [updFirst]
    cases hpa : (a.id == id) with
    | true =>
      rw [hpa] at h
      simp only at h
      injection h with h
      subst h
      simp
    | false =>
      rw [hpa] at h
      simp only at h
      simp only [hpa, Bool.false_eq_true, if_neg]
      exact List.mem_cons_of_mem _ (ih h)

theorem exists_mem_updFirst {l : List StoredRelease} {id : String}
    {f : StoredRelease → StoredRelease} {P : StoredRelease → Prop}
    (hP : ∀ x, P x → P (f x)) (h : ∃ r ∈ l, P r) : ∃ r ∈ updFirst l id f, P r := by
  induction l with
  | nil => simp at h
  | cons a t ih =>
    obtain ⟨r, hr, hPr⟩ := h
    simp only [updFirst]
    cases hpa : (a.id == id) with
    | true =>
      rcases List.mem_cons.mp hr with h1 | h1
      · subst h1; exact ⟨f r, by simp, hP r hPr⟩
      · exact ⟨r, by simp [List.mem_cons_of_mem _ h1], hPr⟩
    | false =>
      rcases List.mem_cons.mp hr with h1 | h1
      · subst h1; exact ⟨r, by simp, hPr⟩
      · obtain ⟨r', hr', hPr'⟩ := ih ⟨r, h1, hPr⟩
        exact ⟨r', by simp [List.mem_cons_of_mem _ hr'], hPr'⟩

theorem lookupSnapshot_writeSnapshot (ds : DeliveryState) (r : StoredRelease) (aid : String) :
    (ds.writeSnapshot r).lookupSnapshot aid =
      if r.id == aid then some r else ds.lookupSnapshot aid := by
  simp only [DeliveryState.writeSnapshot, DeliveryState.lookupSnapshot, List.find?]
  cases h : (r.id == aid) with
  | true => simp [h]
  | false => simp [h]

/- Parsing lemmas for the create-release validation. -/

theorem parseRawPage_eq_none_iff (p : RawPage) :
    parseRawPage p = none ↔ rawPageMissingField p = true := by
  cases hid : p.id <;> cases hpa : p.path <;> cases hlo : p.locale <;> cases hti : p.title <;>
    simp [parseRawPage, rawPageMissingField, hid, hpa, hlo, hti]

theorem parsePages_none {l : List RawPage} (p : RawPage) (hp : p ∈ l)
    (hnone : parseRawPage p = none) : parsePages l = none := by
  induction l with
  | nil => simp at hp
  | cons a t ih =>
    rcases List.mem_cons.mp hp with h1 | h1
    · subst h1
      simp [parsePages, hnone]
    · cases ha : parseRawPage a with
      | none => simp [parsePages, ha]
      | some pa => simp [parsePages, ha, ih h1]

theorem parsePages_some {l : List RawPage}
    (h : ∀ p ∈ l, parseRawPage p ≠ none) :
    ∃ pages, parsePages l = some pages ∧ pages.length = l.length := by
  induction l with
  | nil => exact ⟨[], rfl, rfl⟩
  | cons a t ih =>
    cases ha : parseRawPage a with
    | none => exact absurd ha (h a (by simp))
    | some pa =>
      obtain ⟨pages, hps, hlen⟩ := ih (fun p hp => h p (List.mem_cons_of_mem _ hp))
      exact ⟨pa :: pages, by simp [parsePages, ha, hps], by simp [hlen]⟩

/-- C1 (amended): release creation fails with a ValidationError — and
persists nothing — exactly when the page list is empty or some page
snapshot is missing one of the required fields (id, path, locale, title);
otherwise (duplicate (path, locale) pairs included) it constructs a
release in status created with the fresh id and appends it to the
journal.  A duplicate (path, locale) pair is NOT rejected. -/
theorem C1_create_validation (sys : Sys) (req : RawCreateRequest) (newId : String) (now : Nat) :
    ((req.pages.isEmpty || req.pages.any rawPageMissingField) = true →
      postReleases sys req newId now = (sys, .error .validation)) ∧
    ((req.pages.isEmpty || req.pages.any rawPageMissingField) = false →
      ∃ pages, parsePages req.pages = some pages ∧
        postReleases sys req newId now =
          ({ sys with journal := { releases := sys.journal.releases ++
              [{ id := newId, status := .created, createdAt := now, promotedAt := none,
                 rolledBackAt := none, name := req.name, notes := req.notes, pages := pages }] } },
           .ok { id := newId, status := .created, createdAt := now, promotedAt := none,
                 rolledBackAt := none, name := req.name, notes := req.notes, pages := pages })) := by
  constructor
  · intro h
    by_cases hemp : req.pages = []
    · simp [postReleases, parseCreateRequest, hemp, parsePages]
    · have hany : req.pages.any rawPageMissingField = true := by
        cases hx : req.pages.any rawPageMissingField with
        | true => rfl
        | false =>
          cases hl : req.pages with
          | nil => exact absurd hl hemp
          | cons a t =>
            rw [hl] at h hx
            simp [hx] at h
      obtain ⟨p, hp, hmiss⟩ := List.any_eq_true.mp hany
      have hnone : parseRawPage p = none := (parseRawPage_eq_none_iff p).mpr hmiss
      simp [postReleases, parseCreateRequest, parsePages_none p hp hnone]
  · intro h
    have hall : ∀ p ∈ req.pages, parseRawPage p ≠ none := by
      intro p hp hnone
      have hmiss := (parseRawPage_eq_none_iff p).mp hnone
      have hany : req.pages.any rawPageMissingField = true := List.any_eq_true.mpr ⟨p, hp, hmiss⟩
      rw [hany] at h
      simp at h
    obtain ⟨pages, hps, hlen⟩ := parsePages_some hall
    have hnonempty : pages.isEmpty = false := by
      cases hl : req.pages with
      | nil => rw [hl] at h; simp at h
      | cons a t =>
        rw [hl] at hlen
        cases pages with
        | nil => simp at hlen
        | cons q qs => rfl
    refine ⟨pages, hps, ?_⟩
    simp [postReleases, parseCreateRequest, hps, hnonempty, JournalReleaseStore.create]

/-- C1 counterexample: a create request whose two page snapshots share
the (path, locale) pair ("/demo", "en-AU") is accepted — the handler
returns ok and persists one release — whereas the claim demands a
ValidationError with nothing persisted. -/
theorem C1_counterexample :
    ((dupReq.pages.map fun p => (p.path, p.locale)) =
      [(some "/demo", some "en-AU"), (some "/demo", some "en-AU")]) ∧
    (postReleases initSys dupReq "r1" 0).2.isOk = true ∧
    (postReleases initSys dupReq "r1" 0).1.journal.releases.length = 1 :=
  ⟨rfl, rfl, rfl⟩

/-- C1 witness: the amended theorem applied to a concrete empty-page
request, whose validation fails and persists nothing. -/
theorem C1_witness :
    postReleases initSys { name := none, notes := none, pages := [] } "w1" 0 =
      (initSys, .error .validation) :=
  (C1_create_validation initSys { name := none, notes := none, pages := [] } "w1" 0).1 rfl

/- Reduction lemmas for promote and rollback. -/

theorem promote_of_none {sys : Sys} {id : String} (now : Nat) (snapOk idxOk : Bool)
    (h : sys.journal.findRelease id = none) :
    JournalReleaseStore.promote sys id now snapOk idxOk = (sys, none) := by
  simp [JournalReleaseStore.promote, h]

theorem promote_journal {sys : Sys} {id : String} {r : StoredRelease} (now : Nat)
    (snapOk idxOk : Bool) (h : sys.journal.findRelease id = some r) :
    (JournalReleaseStore.promote sys id now snapOk idxOk).1.journal =
      sys.journal.updateFirst id (fun s => JournalReleaseStore.promoteMut now s) := by
  simp [JournalReleaseStore.promote, h]

theorem promote_delivery_noSnap {sys : Sys} {id : String} {r : StoredRelease} (now : Nat)
    (idxOk : Bool) (h : sys.journal.findRelease id = some r) :
    (JournalReleaseStore.promote sys id now false idxOk).1.delivery = sys.delivery := by
  simp [JournalReleaseStore.promote, JournalReleaseStore.persistToDelivery, h]

theorem promote_delivery_noIdx {sys : Sys} {id : String} {r : StoredRelease} (now : Nat)
    (h : sys.journal.findRelease id = some r) :
    (JournalReleaseStore.promote sys id now true false).1.delivery =
      sys.delivery.writeSnapshot (JournalReleaseStore.promoteMut now r) := by
  simp [JournalReleaseStore.promote, JournalReleaseStore.persistToDelivery, h]

theorem promote_delivery_ok {sys : Sys} {id : String} {r : StoredRelease} (now : Nat)
    (h : sys.journal.findRelease id = some r) :
    (JournalReleaseStore.promote sys id now true true).1.delivery =
      (sys.delivery.writeSnapshot (JournalReleaseStore.promoteMut now r)).writeIndex
        (JournalReleaseStore.promoteMut now r).id now := by
  simp [JournalReleaseStore.promote, JournalReleaseStore.persistToDelivery, h]

theorem promote_result_ok {sys : Sys} {id : String} {r : StoredRelease} (now : Nat)
    (h : sys.journal.findRelease id = some r) :
    (JournalReleaseStore.promote sys id now true true).2 =
      some (JournalReleaseStore.promoteMut now r) := by
  simp [JournalReleaseStore.promote, JournalReleaseStore.persistToDelivery, h]

theorem rollback_of_none {sys : Sys} {id : String} (now : Nat)
    (h : sys.journal.findRelease id = none) :
    JournalReleaseStore.rollback sys id now = (sys, none) := by
  simp [JournalReleaseStore.rollback, h]

theorem rollback_of_some {sys : Sys} {id : String} {r : StoredRelease} (now : Nat)
    (h : sys.journal.findRelease id = some r) :
    JournalReleaseStore.rollback sys id now =
      ({ sys with
          journal := sys.journal.updateFirst id (fun s => JournalReleaseStore.rollbackMut now s) },
       some (JournalReleaseStore.rollbackMut now r)) := by
  simp [JournalReleaseStore.rollback, h]

/-- C2 counterexample: rollback does not check the current status, so a
release still in status created is moved directly to rolledback — a
transition the claim excludes.  Here a1 is created (never promoted) and a
rollback succeeds on it. -/
theorem C2_counterexample :
    ((sysCreatedA.journal.findRelease "a1").map (fun r => r.status)) =
      some ReleaseStatus.created ∧
    (((JournalReleaseStore.rollback sysCreatedA "a1" 1).1.journal.findRelease "a1").map
      (fun r => r.status)) = some ReleaseStatus.rolledback ∧
    (JournalReleaseStore.rollback sysCreatedA "a1" 1).2.isSome = true :=
  ⟨rfl, rfl, rfl⟩

/-- How one step rewrites a release found in the journal: promote maps
it through promoteMut, rollback through rollbackMut, anything else
leaves it unchanged; and nothing ever moves a release back to created. -/
theorem step_release_update (sys : Sys) (e : Event) (id : String) (r r' : StoredRelease)
    (hb : sys.journal.findRelease id = some r)
    (ha : (step sys e).journal.findRelease id = some r') :
    (match e with
     | .createEv _ _ _ => r' = r
     | .promoteEv pid now _ _ =>
       if pid = id then r' = JournalReleaseStore.promoteMut now r else r' = r
     | .rollbackEv pid now =>
       if pid = id then r' = JournalReleaseStore.rollbackMut now r else r' = r) ∧
    (r'.status = .created → r.status = .created) := by
  have hmain : (match e with
     | .createEv _ _ _ => r' = r
     | .promoteEv pid now _ _ =>
       if pid = id then r' = JournalReleaseStore.promoteMut now r else r' = r
     | .rollbackEv pid now =>
       if pid = id then r' = JournalReleaseStore.rollbackMut now r else r' = r) := by
    cases e with
    | createEv payload newId now =>
      simp only [step, JournalReleaseStore.create, ReleaseState.findRelease] at ha
      rw [List.find?_append] at ha
      have hb' : sys.journal.releases.find? (fun x => x.id == id) = some r := hb
      rw [hb'] at ha
      simp only [Option.or_some] at ha
      exact (Option.some.inj ha).symm
    | promoteEv pid now snapOk idxOk =>
      cases hf : sys.journal.findRelease pid with
      | none =>
        have hstep : step sys (.promoteEv pid now snapOk idxOk) = sys := by
          simp [step, promote_of_none now snapOk idxOk hf]
        rw [hstep, hb] at ha
        have hr : r' = r := (Option.some.inj ha).symm
        by_cases hpid : pid = id
        · subst hpid; rw [hf] at hb; exact Option.noConfusion hb
        · simp only [if_neg hpid]; exact hr
      | some rp =>
        have hj := promote_journal now snapOk idxOk hf
        have ha' : (sys.journal.updateFirst pid
            (fun s => JournalReleaseStore.promoteMut now s)).findRelease id = some r' := by
          rw [← hj]; exact ha
        by_cases hpid : pid = id
        · subst hpid
          simp only [if_pos rfl]
          have hrp : rp = r := Option.some.inj (hf.symm.trans hb)
          subst hrp
          have hself : (updFirst sys.journal.releases pid
              (fun s => JournalReleaseStore.promoteMut now s)).find?
              (fun x => x.id == pid) = some (JournalReleaseStore.promoteMut now rp) :=
            find?_updFirst_self hf rfl
          have ha'' : (updFirst sys.journal.releases pid
              (fun s => JournalReleaseStore.promoteMut now s)).find?
              (fun x => x.id == pid) = some r' := ha'
          exact (Option.some.inj (hself.symm.trans ha'')).symm
        · simp only [if_neg hpid]
          have hne : (updFirst sys.journal.releases pid
              (fun s => JournalReleaseStore.promoteMut now s)).find?
              (fun x => x.id == id) = sys.journal.releases.find? (fun x => x.id == id) :=
            find?_updFirst_ne (fun x => rfl) (fun hc => hpid hc.symm)
          have ha'' : sys.journal.releases.find? (fun x => x.id == id) = some r' := by
            rw [← hne]; exact ha'
          have hb' : sys.journal.releases.find? (fun x => x.id == id) = some r := hb
          exact (Option.some.inj (hb'.symm.trans ha'')).symm
    | rollbackEv pid now =>
      cases hf : sys.journal.findRelease pid with
      | none =>
        have hstep : step sys (.rollbackEv pid now) = sys := by
          simp [step, rollback_of_none now hf]
        rw [hstep, hb] at ha
        have hr : r' = r := (Option.some.inj ha).symm
        by_cases hpid : pid = id
        · subst hpid; rw [hf] at hb; exact Option.noConfusion hb
        · simp only [if_neg hpid]; exact hr
      | some rp =>
        have hj : (step sys (.rollbackEv pid now)).journal =
            sys.journal.updateFirst pid (fun s => JournalReleaseStore.rollbackMut now s) := by
          simp [step, rollback_of_some now hf]
        have ha' : (sys.journal.updateFirst pid
            (fun s => JournalReleaseStore.rollbackMut now s)).findRelease id = some r' := by
          rw [← hj]; exact ha
        by_cases hpid : pid = id
        · subst hpid
          simp only [if_pos rfl]
          have hrp : rp = r := Option.some.inj (hf.symm.trans hb)
          subst hrp
          have hself : (updFirst sys.journal.releases pid
              (fun s => JournalReleaseStore.rollbackMut now s)).find?
              (fun x => x.id == pid) = some (JournalReleaseStore.rollbackMut now rp) :=
            find?_updFirst_self hf rfl
          have ha'' : (updFirst sys.journal.releases pid
              (fun s => JournalReleaseStore.rollbackMut now s)).find?
              (fun x => x.id == pid) = some r' := ha'
          exact (Option.some.inj (hself.symm.trans ha'')).symm
        · simp only [if_neg hpid]
          have hne : (updFirst sys.journal.releases pid
              (fun s => JournalReleaseStore.rollbackMut now s)).find?
              (fun x => x.id == id) = sys.journal.releases.find? (fun x => x.id == id) :=
            find?_updFirst_ne (fun x => rfl) (fun hc => hpid hc.symm)
          have ha'' : sys.journal.releases.find? (fun x => x.id == id) = some r' := by
            rw [← hne]; exact ha'
          have hb' : sys.journal.releases.find? (fun x => x.id == id) = some r := hb
          exact (Option.some.inj (hb'.symm.trans ha'')).symm
  refine ⟨hmain, ?_⟩
  intro hc
  cases e with
  | createEv payload newId now =>
    simp only at hmain
    rw [← hmain]; exact hc
  | promoteEv pid now snapOk idxOk =>
    simp only at hmain
    by_cases hpid : pid = id
    · rw [if_pos hpid] at hmain
      rw [hmain] at hc
      exact absurd hc (by simp [JournalReleaseStore.promoteMut])
    · rw [if_neg hpid] at hmain
      rw [← hmain]; exact hc
  | rollbackEv pid now =>
    simp only at hmain
    by_cases hpid : pid = id
    · rw [if_pos hpid] at hmain
      rw [hmain] at hc
      exact absurd hc (by simp [JournalReleaseStore.rollbackMut])
    · rw [if_neg hpid] at hmain
      rw [← hmain]; exact hc

/-- C2 (amended): the only status transitions any operation performs are
those of promote — which sets status promoted from any prior status
(created, promoted or rolledback) — and of rollback — which sets status
rolledback from any prior status; create never alters an existing
release, and no operation ever returns a release to status created. -/
theorem C2_transitions (sys : Sys) (e : Event) (id : String) (r r' : StoredRelease)
    (hb : sys.journal.findRelease id = some r)
    (ha : (step sys e).journal.findRelease id = some r') :
    (match e with
     | .createEv _ _ _ => r' = r
     | .promoteEv pid now _ _ =>
       if pid = id then r' = JournalReleaseStore.promoteMut now r else r' = r
     | .rollbackEv pid now =>
       if pid = id then r' = JournalReleaseStore.rollbackMut now r else r' = r) ∧
    (r'.status = .created → r.status = .created) :=
  step_release_update sys e id r r' hb ha

/-- C2 witness: the amended transition theorem applied to the concrete
promotion of the created release a1. -/
theorem C2_witness :
    relPromotedA = JournalReleaseStore.promoteMut 1 relCreatedA ∧
    (relPromotedA.status = .created → relCreatedA.status = .created) :=
  C2_transitions sysCreatedA (.promoteEv "a1" 1 true true) "a1" relCreatedA relPromotedA rfl rfl

/-- C3 (confirmed): promoting a release that is already promoted succeeds
(it is never rejected), yields status promoted with the refreshed
promotion timestamp and a cleared rollback timestamp, republishes the
snapshot under the release id, and leaves the Active Pointer naming this
release. -/
theorem C3_promote_idempotent (sys : Sys) (id : String) (now : Nat) (r : StoredRelease)
    (hfind : sys.journal.findRelease id = some r) (_hst : r.status = .promoted) :
    (JournalReleaseStore.promote sys id now true true).2 =
      some (JournalReleaseStore.promoteMut now r) ∧
    (JournalReleaseStore.promoteMut now r).status = .promoted ∧
    (JournalReleaseStore.promoteMut now r).promotedAt = some now ∧
    (JournalReleaseStore.promoteMut now r).rolledBackAt = none ∧
    (JournalReleaseStore.promote sys id now true true).1.journal.findRelease id =
      some (JournalReleaseStore.promoteMut now r) ∧
    (JournalReleaseStore.promote sys id now true true).1.delivery.lookupSnapshot id =
      some (JournalReleaseStore.promoteMut now r) ∧
    (JournalReleaseStore.promote sys id now true true).1.delivery.index =
      some { activeReleaseId := some id, updatedAt := now } := by
  have hid : r.id = id := findRelease_id hfind
  refine ⟨promote_result_ok now hfind, rfl, rfl, rfl, ?_, ?_, ?_⟩
  · rw [promote_journal now true true hfind]
    exact find?_updFirst_self hfind rfl
  · rw [promote_delivery_ok now hfind]
    have hstep : ((sys.delivery.writeSnapshot (JournalReleaseStore.promoteMut now r)).writeIndex
        (JournalReleaseStore.promoteMut now r).id now).lookupSnapshot id =
        (sys.delivery.writeSnapshot (JournalReleaseStore.promoteMut now r)).lookupSnapshot id :=
      rfl
    rw [hstep, lookupSnapshot_writeSnapshot]
    have hbeq : ((JournalReleaseStore.promoteMut now r).id == id) = true := by
      simp [JournalReleaseStore.promoteMut, hid]
    rw [hbeq]
    simp
  · rw [promote_delivery_ok now hfind]
    simp [DeliveryState.writeIndex, JournalReleaseStore.promoteMut, hid]

/-- C3 witness: re-promoting the already promoted release a1 at time 2. -/
theorem C3_witness :
    (JournalReleaseStore.promote sysPromotedA "a1" 2 true true).2 =
      some (JournalReleaseStore.promoteMut 2 relPromotedA) ∧
    (JournalReleaseStore.promoteMut 2 relPromotedA).status = .promoted ∧
    (JournalReleaseStore.promoteMut 2 relPromotedA).promotedAt = some 2 ∧
    (JournalReleaseStore.promoteMut 2 relPromotedA).rolledBackAt = none ∧
    (JournalReleaseStore.promote sysPromotedA "a1" 2 true true).1.journal.findRelease "a1" =
      some (JournalReleaseStore.promoteMut 2 relPromotedA) ∧
    (JournalReleaseStore.promote sysPromotedA "a1" 2 true true).1.delivery.lookupSnapshot "a1" =
      some (JournalReleaseStore.promoteMut 2 relPromotedA) ∧
    (JournalReleaseStore.promote sysPromotedA "a1" 2 true true).1.delivery.index =
      some { activeReleaseId := some "a1", updatedAt := 2 } :=
  C3_promote_idempotent sysPromotedA "a1" 2 relPromotedA rfl rfl

/-- C4 (confirmed): rollback leaves the delivery directory untouched —
so the delivery resolver returns the same answer for every query,
explicit or pointer-based, before and after — leaves every other journal
entry unchanged, and changes exactly the status and rollback timestamp of
the named release. -/
theorem C4_rollback_frame (sys : Sys) (id : String) (now : Nat) :
    (JournalReleaseStore.rollback sys id now).1.delivery = sys.delivery ∧
    (∀ q, resolveRelease (JournalReleaseStore.rollback sys id now).1.delivery q =
       resolveRelease sys.delivery q) ∧
    (∀ id', id' ≠ id →
       (JournalReleaseStore.rollback sys id now).1.journal.findRelease id' =
         sys.journal.findRelease id') ∧
    (∀ r, sys.journal.findRelease id = some r →
       (JournalReleaseStore.rollback sys id now).1.journal.findRelease id =
         some (JournalReleaseStore.rollbackMut now r) ∧
       (JournalReleaseStore.rollbackMut now r).status = .rolledback ∧
       (JournalReleaseStore.rollbackMut now r).rolledBackAt = some now ∧
       (JournalReleaseStore.rollbackMut now r).id = r.id ∧
       (JournalReleaseStore.rollbackMut now r).createdAt = r.createdAt ∧
       (JournalReleaseStore.rollbackMut now r).promotedAt = r.promotedAt ∧
       (JournalReleaseStore.rollbackMut now r).name = r.name ∧
       (JournalReleaseStore.rollbackMut now r).notes = r.notes ∧
       (JournalReleaseStore.rollbackMut now r).pages = r.pages) := by
  cases hf : sys.journal.findRelease id with
  | none =>
    rw [rollback_of_none now hf]
    refine ⟨rfl, fun q => rfl, fun id' h => rfl, fun r hr => ?_⟩
    exact Option.noConfusion hr
  | some r0 =>
    rw [rollback_of_some now hf]
    refine ⟨rfl, fun q => rfl, fun id' h => ?_, fun r hr => ?_⟩
    · exact find?_updFirst_ne (fun x => rfl) h
    · have hr0 : r0 = r := Option.some.inj hr
      subst hr0
      exact ⟨find?_updFirst_self hf rfl, rfl, rfl, rfl, rfl, rfl, rfl, rfl, rfl⟩

/-- C4 witness: rolling back the active release a1 in the promoted
system state. -/
theorem C4_witness :
    (JournalReleaseStore.rollback sysPromotedA "a1" 3).1.delivery = sysPromotedA.delivery ∧
    resolveRelease (JournalReleaseStore.rollback sysPromotedA "a1" 3).1.delivery none =
      resolveRelease sysPromotedA.delivery none ∧
    (JournalReleaseStore.rollback sysPromotedA "a1" 3).1.journal.findRelease "b2" =
      sysPromotedA.journal.findRelease "b2" ∧
    (JournalReleaseStore.rollback sysPromotedA "a1" 3).1.journal.findRelease "a1" =
      some (JournalReleaseStore.rollbackMut 3 relPromotedA) ∧
    (JournalReleaseStore.rollbackMut 3 relPromotedA).pages = relPromotedA.pages := by
  have h := C4_rollback_frame sysPromotedA "a1" 3
  exact ⟨h.1, h.2.1 none, h.2.2.1 "b2" (by decide), (h.2.2.2 relPromotedA rfl).1,
    (h.2.2.2 relPromotedA rfl).2.2.2.2.2.2.2.2⟩

/- The C5 invariant: preservation along every event. -/

theorem invC5_init : InvC5 initSys := by
  intro idx aid hidx haid
  exact Option.noConfusion hidx

theorem invC5_step (sys : Sys) (e : Event) (h : InvC5 sys) : InvC5 (step sys e) := by
  cases e with
  | createEv payload newId now =>
    intro idx aid hidx haid
    obtain ⟨h1, r, hr, hid, hprom⟩ := h idx aid hidx haid
    exact ⟨h1, r, List.mem_append_left _ hr, hid, hprom⟩
  | rollbackEv id now =>
    cases hf : sys.journal.findRelease id with
    | none =>
      intro idx aid hidx haid
      rw [step, rollback_of_none now hf]
      rw [step, rollback_of_none now hf] at hidx
      exact h idx aid hidx haid
    | some r0 =>
      intro idx aid hidx haid
      rw [step, rollback_of_some now hf] at hidx
      obtain ⟨h1, r, hr, hid, hprom⟩ := h idx aid hidx haid
      rw [step, rollback_of_some now hf]
      refine ⟨h1, ?_⟩
      exact exists_mem_updFirst (fun x hx => ⟨hx.1, hx.2⟩) ⟨r, hr, hid, hprom⟩
  | promoteEv id now snapOk idxOk =>
    cases hf : sys.journal.findRelease id with
    | none =>
      intro idx aid hidx haid
      rw [step, promote_of_none now snapOk idxOk hf]
      rw [step, promote_of_none now snapOk idxOk hf] at hidx
      exact h idx aid hidx haid
    | some r0 =>
      cases snapOk with
      | false =>
        intro idx aid hidx haid
        have hd : (step sys (.promoteEv id now false idxOk)).delivery = sys.delivery :=
          promote_delivery_noSnap now idxOk hf
        rw [hd] at hidx
        obtain ⟨h1, r, hr, hid, hprom⟩ := h idx aid hidx haid
        rw [hd]
        refine ⟨h1, ?_⟩
        have hj : (step sys (.promoteEv id now false idxOk)).journal =
            sys.journal.updateFirst id (fun s => JournalReleaseStore.promoteMut now s) :=
          promote_journal now false idxOk hf
        rw [hj]
        exact exists_mem_updFirst (fun x hx => ⟨hx.1, rfl⟩) ⟨r, hr, hid, hprom⟩
      | true =>
        cases idxOk with
        | false =>
          intro idx aid hidx haid
          have hd : (step sys (.promoteEv id now true false)).delivery =
              sys.delivery.writeSnapshot (JournalReleaseStore.promoteMut now r0) :=
            promote_delivery_noIdx now hf
          rw [hd] at hidx
          have hidx' : sys.delivery.index = some idx := hidx
          obtain ⟨h1, r, hr, hid, hprom⟩ := h idx aid hidx' haid
          rw [hd]
          constructor
          · rw [lookupSnapshot_writeSnapshot]
            cases hbeq : ((JournalReleaseStore.promoteMut now r0).id == aid) with
            | true => simp
            | false => simp [h1]
          · have hj : (step sys (.promoteEv id now true false)).journal =
                sys.journal.updateFirst id (fun s => JournalReleaseStore.promoteMut now s) :=
              promote_journal now true false hf
            rw [hj]
            exact exists_mem_updFirst (fun x hx => ⟨hx.1, rfl⟩) ⟨r, hr, hid, hprom⟩
        | true =>
          intro idx aid hidx haid
          have hd : (step sys (.promoteEv id now true true)).delivery =
              (sys.delivery.writeSnapshot (JournalReleaseStore.promoteMut now r0)).writeIndex
                (JournalReleaseStore.promoteMut now r0).id now :=
            promote_delivery_ok now hf
          rw [hd] at hidx
          have hidx2 := Option.some.inj hidx
          have haid' : aid = (JournalReleaseStore.promoteMut now r0).id := by
            rw [← hidx2] at haid
            exact (Option.some.inj haid).symm
          rw [hd]
          constructor
          · have hl : ((sys.delivery.writeSnapshot (JournalReleaseStore.promoteMut now r0)).writeIndex
                (JournalReleaseStore.promoteMut now r0).id now).lookupSnapshot aid =
                (sys.delivery.writeSnapshot (JournalReleaseStore.promoteMut now r0)).lookupSnapshot
                  aid := rfl
            rw [hl, lookupSnapshot_writeSnapshot, haid']
            simp
          · have hj : (step sys (.promoteEv id now true true)).journal =
                sys.journal.updateFirst id (fun s => JournalReleaseStore.promoteMut now s) :=
              promote_journal now true true hf
            rw [hj]
            refine ⟨JournalReleaseStore.promoteMut now r0, mem_updFirst_of_find? hf, ?_, rfl⟩
            rw [haid']

theorem invC5_run (evs : List Event) (sys : Sys) (h : InvC5 sys) : InvC5 (runEvents sys evs) := by
  induction evs generalizing sys with
  | nil => exact h
  | cons e t ih => exact ih (step sys e) (invC5_step sys e h)

/-- C5 (confirmed): in publish, the active pointer is only written after
the snapshot write succeeded — a failed snapshot write leaves the whole
delivery directory unchanged, and a failed index write after a
successful snapshot write leaves the pointer unchanged — and along every
sequence of operations from the initial state, whenever the pointer
names a release id, the snapshot store holds a snapshot under that id
and the journal holds a release with that id promoted at least once. -/
theorem C5_publish_discipline (evs : List Event) :
    InvC5 (runEvents initSys evs) ∧
    (∀ sys id now idxOk,
      (JournalReleaseStore.promote sys id now false idxOk).1.delivery = sys.delivery) ∧
    (∀ sys id now,
      (JournalReleaseStore.promote sys id now true false).1.delivery.index =
        sys.delivery.index) := by
  refine ⟨invC5_run evs initSys invC5_init, ?_, ?_⟩
  · intro sys id now idxOk
    cases hf : sys.journal.findRelease id with
    | none => rw [promote_of_none now false idxOk hf]
    | some r => exact promote_delivery_noSnap now idxOk hf
  · intro sys id now
    cases hf : sys.journal.findRelease id with
    | none => rw [promote_of_none now true false hf]
    | some r => rw [promote_delivery_noIdx now hf]; rfl

/-- C5 witness: after creating and promoting a1, the pointer names a1,
the snapshot store holds a1, and the journal holds a1 with a promotion
timestamp; the structural conjuncts instantiated at the promoted state. -/
theorem C5_witness :
    (((runEvents initSys [.createEv samplePayload "a1" 0, .promoteEv "a1" 1 true true])
        |>.delivery.lookupSnapshot "a1").isSome = true ∧
      ∃ r ∈ (runEvents initSys
          [.createEv samplePayload "a1" 0, .promoteEv "a1" 1 true true]).journal.releases,
        r.id = "a1" ∧ r.promotedAt.isSome = true) ∧
    (JournalReleaseStore.promote sysPromotedA "a1" 5 false true).1.delivery =
      sysPromotedA.delivery ∧
    (JournalReleaseStore.promote sysPromotedA "a1" 5 true false).1.delivery.index =
      sysPromotedA.delivery.index := by
  have h := C5_publish_discipline [.createEv samplePayload "a1" 0, .promoteEv "a1" 1 true true]
  exact ⟨h.1 { activeReleaseId := some "a1", updatedAt := 1 } "a1" rfl rfl,
    h.2.1 sysPromotedA "a1" 5 true, h.2.2 sysPromotedA "a1" 5⟩

/-- C6 counterexample: the guard in resolveRelease is the JavaScript
truthiness test, so an explicitly given empty-string releaseId falls
back to the active pointer.  Here no snapshot with id the empty string
exists, so the claim demands a not-found answer, yet the resolver
returns the snapshot named by the pointer. -/
theorem C6_counterexample :
    readReleaseFromDelivery sysPromotedA.delivery "" = none ∧
    resolveRelease sysPromotedA.delivery (some "") = some relPromotedA :=
  ⟨rfl, rfl⟩

/-- C6 (amended): when a non-empty releaseId is given, resolveRelease
returns exactly the published snapshot with that id (or not-found) and
never consults the active pointer; an empty-string releaseId is treated
as omitted; when the id is omitted, the resolver returns not-found when
there is no active pointer or the pointer value is empty, and otherwise
returns exactly the result of loading the snapshot the pointer names
(not-found when that snapshot is missing); no case raises. -/
theorem C6_resolve (ds : DeliveryState) :
    (∀ id, id.isEmpty = false →
      resolveRelease ds (some id) = readReleaseFromDelivery ds id) ∧
    (resolveRelease ds (some "") = resolveRelease ds none) ∧
    (readReleaseIndex ds = none → resolveRelease ds none = none) ∧
    (∀ aid, readReleaseIndex ds = some aid → aid.isEmpty = true →
      resolveRelease ds none = none) ∧
    (∀ aid, readReleaseIndex ds = some aid → aid.isEmpty = false →
      resolveRelease ds none = readReleaseFromDelivery ds aid) := by
  refine ⟨?_, rfl, ?_, ?_, ?_⟩
  · intro id hid
    simp [resolveRelease, hid]
  · intro h
    simp [resolveRelease, h]
  · intro aid h he
    simp [resolveRelease, h, he]
  · intro aid h he
    simp [resolveRelease, h, he]

/-- C6 witness: the amended resolver contract at the concrete promoted
delivery state. -/
theorem C6_witness :
    resolveRelease sysPromotedA.delivery (some "a1") =
      readReleaseFromDelivery sysPromotedA.delivery "a1" ∧
    resolveRelease sysPromotedA.delivery (some "missing") =
      readReleaseFromDelivery sysPromotedA.delivery "missing" ∧
    resolveRelease sysPromotedA.delivery none =
      readReleaseFromDelivery sysPromotedA.delivery "a1" := by
  have h := C6_resolve sysPromotedA.delivery
  exact ⟨h.1 "a1" rfl, h.1 "missing" rfl, h.2.2.2.2 "a1" rfl rfl⟩

/-- C7 counterexample: the persist step of the journal store issues a
single direct write of the serialized journal onto the store file itself
— no temporary file and no rename — so it violates the atomic-replace
discipline the claim asserts, at the concrete journal holding a1. -/
theorem C7_counterexample :
    persistOps "releases.json" sysCreatedA.journal =
      [FsOp.write "releases.json" sysCreatedA.journal] ∧
    usesAtomicReplace "releases.json" (persistOps "releases.json" sysCreatedA.journal) = false :=
  ⟨rfl, rfl⟩

/-- C7 (amended): every mutating journal operation persists the whole
journal with one direct write of the full post-state onto the store file
— after the write completes the file holds the new journal exactly once
— but the write is not an atomic replace: the trace never renames a
temporary file into place, so the discipline of the claim is never
satisfied. -/
theorem C7_persist_direct_write (storeFile : String) (s : ReleaseState)
    (file : Option ReleaseState) :
    persistOps storeFile s = [FsOp.write storeFile s] ∧
    usesAtomicReplace storeFile (persistOps storeFile s) = false ∧
    runFs storeFile file (persistOps storeFile s) = some s := by
  refine ⟨rfl, ?_, ?_⟩
  · simp [usesAtomicReplace, persistOps]
  · simp [runFs, persistOps]

theorem releaseMatches_eq_claimMatches (f : ReleaseFilter) (r : StoredRelease)
    (hq : ∀ q, f.search = some q → q.isEmpty = false) :
    releaseMatches f r = claimMatches f r := by
  cases hs : f.status with
  | none =>
    cases hse : f.search with
    | none => simp [releaseMatches, claimMatches, hs, hse, searchPart]
    | some q =>
      have hqe := hq q hse
      simp [releaseMatches, claimMatches, hs, hse, searchPart, hqe, Bool.or_assoc]
  | some st =>
    cases hse : f.search with
    | none =>
      cases hst : (r.status == st) <;>
        simp [releaseMatches, claimMatches, hs, hse, searchPart, bne, hst]
    | some q =>
      have hqe := hq q hse
      cases hst : (r.status == st) <;>
        simp [releaseMatches, claimMatches, hs, hse, searchPart, bne, hst, hqe, Bool.or_assoc]

/-- C8 (confirmed): list with a filter returns exactly the releases that
match it — the status filter keeps precisely the releases whose status
equals it, and the search text matches case-insensitively against the
name, the notes, or any contained page path — sorted by creation time,
most recent first, whatever the insertion order.  The hypothesis that a
given search string is non-empty reflects the route schema, which
requires q to have length at least 1. -/
theorem C8_list_filter_sort (s : ReleaseState) (f : ReleaseFilter)
    (hq : ∀ q, f.search = some q → q.isEmpty = false) :
    (∀ r, r ∈ JournalReleaseStore.list s (some f) ↔
      (r ∈ s.releases ∧ claimMatches f r = true)) ∧
    (JournalReleaseStore.list s (some f)).Pairwise
      (fun a b => b.createdAt ≤ a.createdAt) := by
  constructor
  · intro r
    have hmem : r ∈ JournalReleaseStore.list s (some f) ↔
        (r ∈ s.releases ∧ releaseMatches f r = true) := by
      unfold JournalReleaseStore.list
      rw [List.mem_mergeSort]
      exact List.mem_filter
    rw [hmem, releaseMatches_eq_claimMatches f r hq]
  · have htrans : ∀ a b c : StoredRelease,
        decide (b.createdAt ≤ a.createdAt) → decide (c.createdAt ≤ b.createdAt) →
        decide (c.createdAt ≤ a.createdAt) := by
      intro a b c hab hbc
      exact decide_eq_true (Nat.le_trans (of_decide_eq_true hbc) (of_decide_eq_true hab))
    have htotal : ∀ a b : StoredRelease,
        (decide (b.createdAt ≤ a.createdAt) || decide (a.createdAt ≤ b.createdAt)) = true := by
      intro a b
      rcases Nat.le_total b.createdAt a.createdAt with h | h
      · simp [h]
      · simp [h]
    have hs := List.sorted_mergeSort htrans htotal
      (s.releases.filter (fun r => releaseMatches f r))
    refine List.Pairwise.imp (fun h => of_decide_eq_true h) ?_
    exact hs

/-- C8 witness: the list contract at the two-release journal with a
status filter and a mixed-case search string. -/
theorem C8_witness :
    (relB2 ∈ JournalReleaseStore.list sysTwo.journal (some c8Filter) ↔
      (relB2 ∈ sysTwo.journal.releases ∧ claimMatches c8Filter relB2 = true)) ∧
    (JournalReleaseStore.list sysTwo.journal (some c8Filter)).Pairwise
      (fun a b => b.createdAt ≤ a.createdAt) := by
  have h := C8_list_filter_sort sysTwo.journal c8Filter (fun q hq => by cases hq; rfl)
  exact ⟨h.1 relB2, h.2⟩

/-- C9 (confirmed): creating a release with a fresh id and then reading
that id yields a release in status created whose page sequence is
exactly the submitted pages in the submitted order, and no subsequent
operation — create, promote or rollback, successful or not — ever
changes the page sequence of any release present in the journal. -/
theorem C9_create_read_pages (sys : Sys) (payload : CreateReleasePayload) (newId : String)
    (now : Nat) (hfresh : sys.journal.findRelease newId = none) :
    JournalReleaseStore.read (JournalReleaseStore.create sys.journal payload newId now).1 newId =
      some (JournalReleaseStore.create sys.journal payload newId now).2 ∧
    (JournalReleaseStore.create sys.journal payload newId now).2.status = .created ∧
    (JournalReleaseStore.create sys.journal payload newId now).2.pages = payload.pages ∧
    (∀ sys' e id r r', sys'.journal.findRelease id = some r →
      (step sys' e).journal.findRelease id = some r' → r'.pages = r.pages) := by
  refine ⟨?_, rfl, rfl, ?_⟩
  · have hfresh' : sys.journal.releases.find? (fun x => x.id == newId) = none := hfresh
    show ((sys.journal.releases ++
        [(JournalReleaseStore.create sys.journal payload newId now).2]).find?
        (fun x => x.id == newId)) =
      some (JournalReleaseStore.create sys.journal payload newId now).2
    rw [List.find?_append, hfresh']
    simp [JournalReleaseStore.create, List.find?]
  · intro sys' e id r r' hb ha
    have hmain := (step_release_update sys' e id r r' hb ha).1
    cases e with
    | createEv payload' newId' now' =>
      simp only at hmain
      rw [hmain]
    | promoteEv pid now' snapOk idxOk =>
      simp only at hmain
      by_cases hpid : pid = id
      · rw [if_pos hpid] at hmain
        rw [hmain]
        rfl
      · rw [if_neg hpid] at hmain
        rw [hmain]
    | rollbackEv pid now' =>
      simp only at hmain
      by_cases hpid : pid = id
      · rw [if_pos hpid] at hmain
        rw [hmain]
        rfl
      · rw [if_neg hpid] at hmain
        rw [hmain]

/-- C9 witness: create a fresh release c3 on top of the promoted system
and read it back; the frame part instantiated at a rollback of a1. -/
theorem C9_witness :
    JournalReleaseStore.read
        (JournalReleaseStore.create sysPromotedA.journal samplePayload "c3" 4).1 "c3" =
      some (JournalReleaseStore.create sysPromotedA.journal samplePayload "c3" 4).2 ∧
    (JournalReleaseStore.create sysPromotedA.journal samplePayload "c3" 4).2.status = .created ∧
    (JournalReleaseStore.create sysPromotedA.journal samplePayload "c3" 4).2.pages =
      samplePayload.pages ∧
    (JournalReleaseStore.rollbackMut 3 relPromotedA).pages = relPromotedA.pages := by
  have h := C9_create_read_pages sysPromotedA samplePayload "c3" 4 rfl
  exact ⟨h.1, h.2.1, h.2.2.1,
    h.2.2.2 sysPromotedA (.rollbackEv "a1" 3) "a1" relPromotedA
      (JournalReleaseStore.rollbackMut 3 relPromotedA) rfl rfl⟩

/-- C10 (confirmed): the publication service active-snapshot lookup with
an explicit (non-empty) release id reads from the journal, so a release
that exists in the journal but was never promoted is returned, in status
created, rather than not-found. -/
theorem C10_explicit_journal_lookup (sys : Sys) (id : String) (r : StoredRelease)
    (hid : id.isEmpty = false) (hfind : sys.journal.findRelease id = some r)
    (hst : r.status = .created) :
    JournalReleaseStore.getDeliverySnapshot sys (some id) = some r ∧
    r.status = .created := by
  refine ⟨?_, hst⟩
  simp [JournalReleaseStore.getDeliverySnapshot, hid, hfind]

/-- C10 witness: the created, never promoted release a1 — in a system
whose delivery directory is entirely empty — is returned by the explicit
lookup. -/
theorem C10_witness :
    JournalReleaseStore.getDeliverySnapshot sysCreatedA (some "a1") = some relCreatedA ∧
    relCreatedA.status = .created :=
  C10_explicit_journal_lookup sysCreatedA "a1" relCreatedA rfl rfl rfl
